import Mathlib

/-!
Shallow embedding of the chain-of-thought logging subsystem
(`deep_research_agent/utils/chain_of_thought.py`).

Python values that the claims exercise are embedded as follows:
* strings are `String`, Python ints are `Int`/`Nat`;
* Python floats (`confidence`, `execution_time`) are embedded as exact
  rationals (`Rat`); every claim compares them only at decimal points where
  the float and the rational comparison agree;
* `Dict[str, Any]` values (`metadata`, `parameters`) are association lists
  `List (String × JVal)` in insertion order, with Python's dict-update
  semantics (an existing key keeps its position, its value is replaced);
* `None`-able arguments are `Option`; Python truthiness is modelled
  explicitly at each use site (`None`, `""`, `0` are falsy);
* list slices `xs[i:]` use Python's index clamping, including `-0 == 0`.
-/

inductive LogLevel where
  | DEBUG
  | INFO
  | WARNING
  | ERROR
  | CRITICAL
deriving DecidableEq, Repr

/-- `LogLevel(...).value`, the stable string serialization of a level. -/
def levelValue : LogLevel → String
  | .DEBUG => "debug"
  | .INFO => "info"
  | .WARNING => "warning"
  | .ERROR => "error"
  | .CRITICAL => "critical"

/-- `LogLevel(s)`: enum coercion from the serialized string; `none` models the
`ValueError` raised on an unknown string. -/
def levelOfString (s : String) : Option LogLevel :=
  if s = "debug" then some .DEBUG
  else if s = "info" then some .INFO
  else if s = "warning" then some .WARNING
  else if s = "error" then some .ERROR
  else if s = "critical" then some .CRITICAL
  else none

/-- JSON-serializable Python values stored in `metadata` / `parameters` /
`results`. -/
inductive JVal where
  | s (v : String)
  | num (v : Rat)
  | b (v : Bool)
  | null
deriving DecidableEq, Repr

structure ToolCall where
  tool_name : String
  query : String
  parameters : List (String × JVal)
  results : JVal
  execution_time : Rat
  success : Bool
  error_message : Option String
deriving DecidableEq, Repr

structure ChainOfThoughtEntry where
  timestamp : String
  agent : String
  step_id : String
  input_prompt : String
  tool_calls : List ToolCall
  llm_response : String
  decision : String
  reasoning : String
  confidence : Rat
  level : LogLevel
  metadata : List (String × JVal)
deriving DecidableEq, Repr

/-- Python slice `xs[i:]` for an integer `i` (negative indices count from the
end and are clamped; note `-0 == 0` selects the whole list). -/
def pySliceFrom (i : Int) (xs : List α) : List α :=
  xs.drop ((if i < 0 then max 0 ((xs.length : Int) + i) else min i (xs.length : Int)).toNat)

/-- `d.get(k)` / `d[k]` lookup on an insertion-ordered dict. -/
def dictLookup : List (String × JVal) → String → Option JVal
  | [], _ => none
  | p :: rest, k => if p.1 = k then some p.2 else dictLookup rest k

/-- `d[k] = v` on an insertion-ordered dict: an existing key keeps its
position and gets the new value, a new key is appended at the end. -/
def dictInsert : List (String × JVal) → String → JVal → List (String × JVal)
  | [], k, v => [(k, v)]
  | p :: rest, k, v => if p.1 = k then (k, v) :: rest else p :: dictInsert rest k v

/-- The metadata dict built by `log_step`:
`{"session_id": self.current_session_id, **(metadata or {})}`.
The dict literal inserts `session_id` first and then splats the caller's
mapping over it, key by key in insertion order. -/
def log_step_metadata (currentSession : String) (metadata : Option (List (String × JVal))) :
    List (String × JVal) :=
  (metadata.getD []).foldl (fun d p => dictInsert d p.1 p.2)
    [("session_id", JVal.s currentSession)]

/-- The effect of one `log_step` call on `self.entries`: append, then
`self.entries = self.entries[-self.max_entries:]` when the length exceeds
`max_entries`. -/
def log_step_append (maxEntries : Nat) (entries : List ChainOfThoughtEntry)
    (entry : ChainOfThoughtEntry) : List ChainOfThoughtEntry :=
  let es := entries ++ [entry]
  if maxEntries < es.length then pySliceFrom (-(maxEntries : Int)) es else es

/-- The `level` argument of `get_entries`. Its annotation is
`Optional[LogLevel]`, but Python does not enforce it, so a present value is
either a real `LogLevel` member or some other object; a stray string is the
representative modelled here. -/
inductive LevelArg where
  | valid (l : LogLevel)
  | invalid (s : String)
deriving DecidableEq, Repr

/-- Python truthiness of a present `level` argument: enum members are always
truthy; a stray string is truthy iff nonempty. -/
def levelArgTruthy : LevelArg → Bool
  | .valid _ => true
  | .invalid s => decide (s ≠ "")

/-- `e.level == level`: enum equality against a member; an `Enum` compares
unequal to every non-member object. -/
def entryLevelEq (e : ChainOfThoughtEntry) : LevelArg → Bool
  | .valid l => decide (e.level = l)
  | .invalid _ => false

/-- `get_entries(agent, level, limit)`: sequential truthiness-guarded
filters, then `filtered_entries[-limit:]` when `limit` is truthy. -/
def get_entries (entries : List ChainOfThoughtEntry) (agent : Option String)
    (level : Option LevelArg) (limit : Option Int) : List ChainOfThoughtEntry :=
  let f1 := match agent with
    | some a => if a = "" then entries else entries.filter (fun e => decide (e.agent = a))
    | none => entries
  let f2 := match level with
    | some lv => if levelArgTruthy lv then f1.filter (fun e => entryLevelEq e lv) else f1
    | none => f1
  match limit with
  | some n => if n = 0 then f2 else pySliceFrom (-n) f2
  | none => f2

/-- `e.metadata.get("session_id") == target` where `target` is a string:
a missing key yields `None`, and `None == str` (and any non-string value
`== str`) is `False`. -/
def sessionIdMatches (e : ChainOfThoughtEntry) (target : String) : Bool :=
  match dictLookup e.metadata "session_id" with
  | some (JVal.s v) => decide (v = target)
  | _ => false

/-- `get_session_entries(session_id)`: `target = session_id or current`,
then filter by metadata session id. -/
def get_session_entries (entries : List ChainOfThoughtEntry) (sessionId : Option String)
    (currentSession : String) : List ChainOfThoughtEntry :=
  let target := match sessionId with
    | some s => if s = "" then currentSession else s
    | none => currentSession
  entries.filter (fun e => sessionIdMatches e target)

/-- A raw persisted tool-call object, as read back from JSON: each expected
key may be absent. `ToolCall(**tool_data)` fails on a missing required key
(`error_message` alone has a default of `None`). -/
structure RawToolCall where
  tool_name : Option String
  query : Option String
  parameters : Option (List (String × JVal))
  results : Option JVal
  execution_time : Option Rat
  success : Option Bool
  error_message : Option (Option String)
deriving DecidableEq, Repr

/-- A raw persisted entry object: each expected key may be absent, and
`level` is still the serialized string. -/
structure RawEntry where
  timestamp : Option String
  agent : Option String
  step_id : Option String
  input_prompt : Option String
  tool_calls : Option (List RawToolCall)
  llm_response : Option String
  decision : Option String
  reasoning : Option String
  confidence : Option Rat
  level : Option String
  metadata : Option (List (String × JVal))
deriving DecidableEq, Repr

/-- `asdict(tool_call)`: serialization always emits every key. -/
def toolCallToDict (t : ToolCall) : RawToolCall :=
  { tool_name := some t.tool_name
    query := some t.query
    parameters := some t.parameters
    results := some t.results
    execution_time := some t.execution_time
    success := some t.success
    error_message := some t.error_message }

/-- `ChainOfThoughtEntry.to_dict`: serialization always emits every key,
with the level as its string value. -/
def ChainOfThoughtEntry.to_dict (e : ChainOfThoughtEntry) : RawEntry :=
  { timestamp := some e.timestamp
    agent := some e.agent
    step_id := some e.step_id
    input_prompt := some e.input_prompt
    tool_calls := some (e.tool_calls.map toolCallToDict)
    llm_response := some e.llm_response
    decision := some e.decision
    reasoning := some e.reasoning
    confidence := some e.confidence
    level := some (levelValue e.level)
    metadata := some e.metadata }

/-- `ToolCall(**tool_data)`: `none` models the `TypeError` raised when a
required key is missing. -/
def loadToolCall (r : RawToolCall) : Option ToolCall := do
  let tn ← r.tool_name
  let q ← r.query
  let ps ← r.parameters
  let res ← r.results
  let et ← r.execution_time
  let su ← r.success
  some { tool_name := tn, query := q, parameters := ps, results := res,
         execution_time := et, success := su,
         error_message := r.error_message.getD none }

/-- The tool-call conversion loop of `_load_logs`: any failing tool call
aborts reconstruction of the whole entry. -/
def loadToolCalls : List RawToolCall → Option (List ToolCall)
  | [] => some []
  | r :: rs => do
      let t ← loadToolCall r
      let ts ← loadToolCalls rs
      some (t :: ts)

/-- Reconstruction of one entry inside `_load_logs`'s per-entry `try`:
`none` models the caught per-entry exception (missing key, invalid level
string, malformed tool call). `tool_calls` uses `.get("tool_calls", [])`,
so an absent list defaults to empty. -/
def loadEntry (r : RawEntry) : Option ChainOfThoughtEntry := do
  let tcs ← loadToolCalls (r.tool_calls.getD [])
  let ts ← r.timestamp
  let ag ← r.agent
  let sidStep ← r.step_id
  let ip ← r.input_prompt
  let lr ← r.llm_response
  let de ← r.decision
  let re ← r.reasoning
  let co ← r.confidence
  let lvs ← r.level
  let lv ← levelOfString lvs
  let md ← r.metadata
  some { timestamp := ts, agent := ag, step_id := sidStep, input_prompt := ip,
         tool_calls := tcs, llm_response := lr, decision := de, reasoning := re,
         confidence := co, level := lv, metadata := md }

/-- The JSON document written by `_save_logs` (and, shape-wise, by
`export_to_json`). -/
structure SavedLogFile where
  session_id : String
  saved_at : String
  total_entries : Nat
  entries : List RawEntry
deriving DecidableEq, Repr

/-- `_save_logs`: serializes the full in-memory entry sequence. -/
def save_logs (currentSession savedAt : String) (entries : List ChainOfThoughtEntry) :
    SavedLogFile :=
  { session_id := currentSession
    saved_at := savedAt
    total_entries := entries.length
    entries := entries.map ChainOfThoughtEntry.to_dict }

/-- The entry-reconstruction loop of `_load_logs` applied to the raw entry
list taken from the file: only `entries_data[-self.max_entries:]` is
considered, and each raw entry that fails reconstruction is skipped. -/
def load_logs (maxEntries : Nat) (entriesData : List RawEntry) :
    List ChainOfThoughtEntry :=
  (pySliceFrom (-(maxEntries : Int)) entriesData).filterMap loadEntry

/-- Decimal digit value of a character, `none` when not a digit. -/
def digitVal (c : Char) : Option Nat :=
  if c.isDigit then some (c.toNat - 48) else none

/-- Two-digit decimal number. -/
def twoDigits (a b : Char) : Option Nat := do
  let x ← digitVal a
  let y ← digitVal b
  some (x * 10 + y)

/-- Four-digit decimal number. -/
def fourDigits (a b c d : Char) : Option Nat := do
  let x ← twoDigits a b
  let y ← twoDigits c d
  some (x * 100 + y)

/-- Gregorian leap-year test. -/
def isLeap (y : Nat) : Bool := (y % 4 == 0 && y % 100 != 0) || y % 400 == 0

/-- Days in a month of the proleptic Gregorian calendar. -/
def daysInMonth (y m : Nat) : Nat :=
  if m = 2 then (if isLeap y then 29 else 28)
  else if m = 4 ∨ m = 6 ∨ m = 9 ∨ m = 11 then 30
  else 31

/-- Day number of a civil date, with 1970-01-01 as day 0 (the standard
era-based conversion used by calendar libraries). -/
def daysFromCivil (y m d : Nat) : Int :=
  let yAdj : Int := if m ≤ 2 then (y : Int) - 1 else (y : Int)
  let era : Int := (if 0 ≤ yAdj then yAdj else yAdj - 399) / 400
  let yoe : Int := yAdj - era * 400
  let doy : Int := (153 * ((m : Int) + (if 2 < m then -3 else 9)) + 2) / 5 + (d : Int) - 1
  let doe : Int := yoe * 365 + yoe / 4 - yoe / 100 + doy
  era * 146097 + doe - 719468

/-- Parse `HH`, `HH:MM`, `HH:MM:SS`, `HH:MM:SS.fff` or `HH:MM:SS.ffffff`
into microseconds since midnight, validating the component ranges; this is
the time half of `datetime.fromisoformat`. -/
def parseIsoTime (cs : List Char) : Option Int := do
  match cs with
  | [h1, h2] => do
      let h ← twoDigits h1 h2
      guard (h < 24)
      some ((h : Int) * 3600000000)
  | [h1, h2, c1, m1, m2] => do
      guard (c1 = ':')
      let h ← twoDigits h1 h2
      let m ← twoDigits m1 m2
      guard (h < 24 ∧ m < 60)
      some (((h : Int) * 3600 + (m : Int) * 60) * 1000000)
  | h1 :: h2 :: c1 :: m1 :: m2 :: c2 :: s1 :: s2 :: frac => do
      guard (c1 = ':' ∧ c2 = ':')
      let h ← twoDigits h1 h2
      let m ← twoDigits m1 m2
      let s ← twoDigits s1 s2
      guard (h < 24 ∧ m < 60 ∧ s < 60)
      let base : Int := (((h : Int) * 3600 + (m : Int) * 60 + (s : Int)) * 1000000)
      match frac with
      | [] => some base
      | dot :: ds => do
          guard (dot = '.')
          let digits ← ds.mapM digitVal
          let v : Nat := digits.foldl (fun a d => a * 10 + d) 0
          match ds.length with
          | 3 => some (base + (v : Int) * 1000)
          | 6 => some (base + (v : Int))
          | _ => none
  | _ => none

/-- `datetime.fromisoformat` restricted to the formats this repository
produces and their prefixes: `YYYY-MM-DD[<sep>HH[:MM[:SS[.fff|.ffffff]]]]`.
The result is microseconds since 1970-01-01T00:00:00; `none` models the
`ValueError` on anything malformed (CPython accepts an arbitrary single
separator character between date and time). -/
def fromisoformat (str : String) : Option Int := do
  match str.data with
  | y1 :: y2 :: y3 :: y4 :: s1 :: m1 :: m2 :: s2 :: d1 :: d2 :: rest => do
      guard (s1 = '-' ∧ s2 = '-')
      let y ← fourDigits y1 y2 y3 y4
      let m ← twoDigits m1 m2
      let d ← twoDigits d1 d2
      guard (1 ≤ y ∧ y ≤ 9999 ∧ 1 ≤ m ∧ m ≤ 12 ∧ 1 ≤ d ∧ d ≤ daysInMonth y m)
      let dayMicros : Int := daysFromCivil y m d * 86400000000
      match rest with
      | [] => some dayMicros
      | _sep :: timeCs => do
          let t ← parseIsoTime timeCs
          some (dayMicros + t)
  | _ => none

/-- `timedelta.days` for a delta of `t` microseconds: Python normalizes with
floor division (for the positive divisor, Euclidean and floor division
coincide). -/
def timedeltaDays (t : Int) : Int := t / 86400000000

/-- `timedelta.seconds` for a delta of `t` microseconds: the in-day second
component, always in `[0, 86400)`. -/
def timedeltaSeconds (t : Int) : Int := (t % 86400000000) / 1000000

/-- `_calculate_time_span`: parse the first and last entry's timestamps and
render the delta with one unit, choosing by strict comparisons on
`delta.days` / `delta.seconds`; any parse failure yields `"unknown"`. -/
def calculate_time_span (entries : List ChainOfThoughtEntry) : String :=
  match entries with
  | [] => "0 seconds"
  | e :: rest =>
    match fromisoformat e.timestamp,
          fromisoformat ((e :: rest).getLast (List.cons_ne_nil e rest)).timestamp with
    | some t1, some t2 =>
        let delta := t2 - t1
        let days := timedeltaDays delta
        let secs := timedeltaSeconds delta
        if 0 < days then toString days ++ " days"
        else if 3600 < secs then toString (secs / 3600) ++ " hours"
        else if 60 < secs then toString (secs / 60) ++ " minutes"
        else toString secs ++ " seconds"
    | _, _ => "unknown"

/-- JSON-serializable values occurring in the summary structure returned by
`create_summary`. -/
inductive SVal where
  | s (v : String)
  | i (v : Int)
  | num (v : Rat)
  | list (vs : List SVal)
  | dict (kvs : List (String × SVal))
deriving Repr

/-- Key lookup in a summary object. -/
def lookupSummary (d : List (String × SVal)) (k : String) : Option SVal :=
  (d.find? (fun p => p.1 == k)).map (fun p => p.2)

/-- `list(set(...))` over strings. CPython's set iteration order is
unspecified; it is modelled as first-occurrence order, which no claim
depends on (claims use only emptiness and key shapes). -/
def dedupFirst (xs : List String) : List String :=
  xs.foldl (fun acc x => if acc.contains x then acc else acc ++ [x]) []

/-- One step of the level histogram:
`level_counts[v] = level_counts.get(v, 0) + 1`. -/
def bumpCount (d : List (String × Nat)) (k : String) : List (String × Nat) :=
  if d.any (fun p => p.1 == k) then
    d.map (fun p => if p.1 == k then (p.1, p.2 + 1) else p)
  else
    d ++ [(k, 1)]

/-- Round-half-to-even to an integer, CPython's rounding mode, applied to
the exact rational value (binary floating-point representation error is not
modelled; no claim tests rounded values). -/
def roundHalfEven (q : Rat) : Int :=
  let f : Int := q.floor
  let r : Rat := q - (f : Rat)
  if r < 1/2 then f
  else if 1/2 < r then f + 1
  else if f % 2 = 0 then f else f + 1

/-- `round(x, 2)` on the exact rational value. -/
def pyRound2 (x : Rat) : Rat := ((roundHalfEven (x * 100) : Int) : Rat) / 100

/-- One element of the `key_decisions` list: an entry reduced to
`{agent, decision, confidence, timestamp}`. -/
def keyDecisionDict (e : ChainOfThoughtEntry) : SVal :=
  SVal.dict [("agent", SVal.s e.agent), ("decision", SVal.s e.decision),
             ("confidence", SVal.num e.confidence), ("timestamp", SVal.s e.timestamp)]

/-- The entry set `create_summary` summarizes:
`self.get_session_entries(session_id) if session_id else self.entries`. -/
def summarySelect (entries : List ChainOfThoughtEntry) (sessionId : Option String)
    (currentSession : String) : List ChainOfThoughtEntry :=
  match sessionId with
  | some s => if s = "" then entries else get_session_entries entries (some s) currentSession
  | none => entries

/-- `create_summary(session_id)`, returning the summary dict in key
insertion order. -/
def create_summary (entries : List ChainOfThoughtEntry) (sessionId : Option String)
    (currentSession : String) : List (String × SVal) :=
  let es := summarySelect entries sessionId currentSession
  if es.isEmpty then
    [("summary", SVal.s "No reasoning steps recorded"),
     ("total_steps", SVal.i 0),
     ("agents_involved", SVal.list []),
     ("tools_used", SVal.list []),
     ("average_confidence", SVal.num 0)]
  else
    let agentsInvolved := dedupFirst (es.map (fun e => e.agent))
    let toolsUsed := dedupFirst (es.flatMap (fun e => e.tool_calls.map (fun t => t.tool_name)))
    let totalConfidence : Rat := es.foldl (fun a e => a + e.confidence) 0
    let averageConfidence : Rat := totalConfidence / (es.length : Rat)
    let levelCounts := es.foldl (fun d e => bumpCount d (levelValue e.level)) []
    let keyDecisions :=
      (es.filter (fun e => decide (e.decision ≠ "") && decide ((0.7 : Rat) < e.confidence))).map
        keyDecisionDict
    let nSteps := toString es.length
    let nAgents := toString agentsInvolved.length
    let sid := match sessionId with
      | some s => if s = "" then currentSession else s
      | none => currentSession
    [("summary", SVal.s ("Reasoning process with " ++ nSteps ++ " steps across "
        ++ nAgents ++ " agents")),
     ("total_steps", SVal.i es.length),
     ("agents_involved", SVal.list (agentsInvolved.map SVal.s)),
     ("tools_used", SVal.list (toolsUsed.map SVal.s)),
     ("average_confidence", SVal.num (pyRound2 averageConfidence)),
     ("level_distribution", SVal.dict (levelCounts.map (fun p => (p.1, SVal.i (p.2 : Int))))),
     ("key_decisions", SVal.list keyDecisions),
     ("session_id", SVal.s sid),
     ("time_span", SVal.s (calculate_time_span es))]

/-- A concrete entry builder used by the concrete instantiations below. -/
def mkEntry (ag de : String) (conf : Rat) (ts : String) (lv : LogLevel)
    (md : List (String × JVal)) : ChainOfThoughtEntry :=
  { timestamp := ts, agent := ag, step_id := ag ++ "_1", input_prompt := "prompt " ++ ag,
    tool_calls := [], llm_response := "", decision := de, reasoning := "",
    confidence := conf, level := lv, metadata := md }

/-- The conjunctive "matches all provided filters" predicate described by
the spec for `get_entries`, written from the spec's words for comparison
with the sequential-filter implementation (falsy arguments act as absent
filters). -/
def specFilterMatches (agent : Option String) (level : Option LevelArg)
    (e : ChainOfThoughtEntry) : Bool :=
  (match agent with
   | some a => if a = "" then true else decide (e.agent = a)
   | none => true) &&
  (match level with
   | some lv => if levelArgTruthy lv then entryLevelEq e lv else true
   | none => true)

lemma dictLookup_dictInsert_self (d : List (String × JVal)) (k : String) (v : JVal) :
    dictLookup (dictInsert d k v) k = some v := by
  induction d with
  | nil => simp [dictInsert, dictLookup]
  | cons p rest ih =>
      by_cases h : p.1 = k <;> simp [dictInsert, dictLookup, h, ih]

lemma dictLookup_dictInsert_ne (d : List (String × JVal)) (k : String) (v : JVal)
    (k' : String) (h : k' ≠ k) :
    dictLookup (dictInsert d k v) k' = dictLookup d k' := by
  induction d with
  | nil =>
      simp only [dictInsert, dictLookup]
      rw [if_neg (Ne.symm h)]
  | cons p rest ih =>
      by_cases hp : p.1 = k
      · have hpk' : ¬p.1 = k' := by rw [hp]; exact Ne.symm h
        simp only [dictInsert, if_pos hp, dictLookup]
        rw [if_neg (Ne.symm h), if_neg hpk']
      · simp only [dictInsert, if_neg hp, dictLookup]
        by_cases hp' : p.1 = k' <;> simp [hp', ih]

lemma dictLookup_eq_none_of_not_mem (d : List (String × JVal)) (k : String)
    (h : k ∉ d.map Prod.fst) : dictLookup d k = none := by
  induction d with
  | nil => rfl
  | cons p rest ih =>
      simp only [List.map_cons, List.mem_cons] at h
      push_neg at h
      have hp : ¬p.1 = k := Ne.symm h.1
      simp [dictLookup, hp, ih h.2]

lemma dictLookup_foldl_dictInsert (m : List (String × JVal)) :
    ∀ (d : List (String × JVal)) (k : String), (m.map Prod.fst).Nodup →
    dictLookup (m.foldl (fun d p => dictInsert d p.1 p.2) d) k =
      match dictLookup m k with
      | some v => some v
      | none => dictLookup d k := by
  induction m with
  | nil => intro d k _; simp [dictLookup]
  | cons p rest ih =>
      intro d k hnd
      simp only [List.map_cons, List.nodup_cons] at hnd
      simp only [List.foldl_cons]
      rw [ih (dictInsert d p.1 p.2) k hnd.2]
      by_cases hk : p.1 = k
      · subst hk
        rw [dictLookup_eq_none_of_not_mem rest p.1 hnd.1]
        simp [dictLookup, dictLookup_dictInsert_self]
      · cases h : dictLookup rest k <;>
          simp [dictLookup, hk, h, dictLookup_dictInsert_ne d p.1 p.2 k (fun hh => hk hh.symm)]

/-- C1 (counterexample): in the dict literal
`{"session_id": self.current_session_id, **(metadata or {})}` the caller's
splat comes second, so a caller-supplied `"session_id"` value survives and
the logger's is the one overwritten — the opposite of the claim. -/
theorem c1_counterexample :
    dictLookup (log_step_metadata "session_A"
        (some [("session_id", JVal.s "session_B")])) "session_id"
      = some (JVal.s "session_B") ∧
    (some (JVal.s "session_B") : Option JVal) ≠ some (JVal.s "session_A") := by
  exact ⟨rfl, by decide⟩

/-- C1 (amended): the entry's metadata maps `"session_id"` to the
caller-provided value when the caller supplies that key, and to the logger's
`current_session_id` otherwise; all other caller-provided keys are preserved
with their values. -/
theorem c1_log_step_metadata_merge (sid : String) (m : List (String × JVal))
    (hnd : (m.map Prod.fst).Nodup) :
    dictLookup (log_step_metadata sid (some m)) "session_id"
      = some ((dictLookup m "session_id").getD (JVal.s sid)) ∧
    ∀ k, k ≠ "session_id" → dictLookup (log_step_metadata sid (some m)) k = dictLookup m k := by
  constructor
  · rw [log_step_metadata, Option.getD, dictLookup_foldl_dictInsert m _ _ hnd]
    cases dictLookup m "session_id" <;> simp [dictLookup]
  · intro k hk
    rw [log_step_metadata, Option.getD, dictLookup_foldl_dictInsert m _ _ hnd]
    cases h : dictLookup m k <;> simp [dictLookup, h, Ne.symm hk]

/-- C1 (witness): with current session `"s1"` and caller metadata
`{"k": true}`, the merged metadata has the logger's session id and the
caller's key. -/
theorem c1_witness :
    dictLookup (log_step_metadata "s1" (some [("k", JVal.b true)])) "session_id"
      = some (JVal.s "s1") ∧
    dictLookup (log_step_metadata "s1" (some [("k", JVal.b true)])) "k"
      = some (JVal.b true) := by
  have h := c1_log_step_metadata_merge "s1" [("k", JVal.b true)] (by decide)
  exact ⟨h.1.trans (by rfl), (h.2 "k" (by decide)).trans (by rfl)⟩

/-- C8: `limit=0` is falsy, so `get_entries` applies no tail at all and
returns every filtered match; `agent=""` is falsy, so no agent filter is
applied. Both behave exactly like the absent argument. -/
theorem c8_falsy_limit_and_agent_are_absent :
    ∀ (es : List ChainOfThoughtEntry) (a : Option String) (lv : Option LevelArg)
      (lim : Option Int),
    get_entries es a lv (some 0) = get_entries es a lv none ∧
    get_entries es (some "") lv lim = get_entries es none lv lim := by
  intro es a lv lim
  constructor
  · simp [get_entries]
  · cases lim <;> simp [get_entries]

/-- C9: an entry whose metadata lacks the `"session_id"` key is never
returned by `get_session_entries`, for any queried session id — the lookup
uses a defaulting `get`, and `None` compares unequal to every target
string; no exception is possible. -/
theorem c9_missing_session_id_never_matches (entries : List ChainOfThoughtEntry)
    (e : ChainOfThoughtEntry) (sessionId : Option String) (currentSession : String)
    (hm : dictLookup e.metadata "session_id" = none) :
    e ∉ get_session_entries entries sessionId currentSession := by
  intro hmem
  rw [get_session_entries.eq_def] at hmem
  simp only [List.mem_filter] at hmem
  have h2 := hmem.2
  rw [sessionIdMatches, hm] at h2
  exact Bool.false_ne_true h2

/-- C9 (witness): a concrete entry with empty metadata is not in the
session query over a log containing it. -/
theorem c9_witness :
    mkEntry "planner" "" 1 "2024-01-01T00:00:00" LogLevel.INFO [] ∉
      get_session_entries [mkEntry "planner" "" 1 "2024-01-01T00:00:00" LogLevel.INFO []]
        none "session_X" :=
  c9_missing_session_id_never_matches _ _ none "session_X" rfl

lemma pySliceFrom_neg_coe (m : Nat) (hm : 1 ≤ m) (xs : List α) :
    pySliceFrom (-(m : Int)) xs = xs.drop (xs.length - m) := by
  unfold pySliceFrom
  have hi : -(m : Int) < 0 := by omega
  rw [if_pos hi]
  congr 1
  omega

lemma pySliceFrom_all (m : Nat) (xs : List α) (h : xs.length ≤ m) :
    pySliceFrom (-(m : Int)) xs = xs := by
  by_cases hm : 1 ≤ m
  · rw [pySliceFrom_neg_coe m hm]
    have : xs.length - m = 0 := by omega
    rw [this, List.drop_zero]
  · have hm0 : m = 0 := by omega
    subst hm0
    unfold pySliceFrom
    norm_num

/-- For a positive capacity, one `log_step` append-and-trim keeps exactly
the last `maxEntries` elements of the appended list. -/
lemma log_step_append_eq_drop (m : Nat) (hm : 1 ≤ m)
    (acc : List ChainOfThoughtEntry) (e : ChainOfThoughtEntry) :
    log_step_append m acc e = (acc ++ [e]).drop ((acc ++ [e]).length - m) := by
  unfold log_step_append
  by_cases h : m < (acc ++ [e]).length
  · rw [if_pos h, pySliceFrom_neg_coe m hm]
  · rw [if_neg h]
    have hz : (acc ++ [e]).length - m = 0 := by omega
    rw [hz, List.drop_zero]

/-- C2 (counterexample): with `max_entries = 0`, a single `log_step` leaves
one entry, because `entries[-0:]` is the whole list — `len(entries)` is not
`≤ max_entries` after the call. -/
theorem c2_counterexample :
    (log_step_append 0 [] (mkEntry "planner" "" 1 "2024-01-01T00:00:00" LogLevel.INFO [])).length
        = 1 ∧
    ¬((log_step_append 0 []
        (mkEntry "planner" "" 1 "2024-01-01T00:00:00" LogLevel.INFO [])).length ≤ 0) := by
  constructor
  · rfl
  · intro h
    exact Nat.not_succ_le_zero 0 h

/-- C2 (amended): for every positive capacity `max_entries` and every
sequence of `log_step` calls starting from an empty log, the resulting
entry list is exactly the suffix of the appended entries of length at most
`max_entries` (the most recently appended ones, in append order), so in
particular its length never exceeds `max_entries`. -/
theorem c2_capacity_invariant (m : Nat) (hm : 1 ≤ m)
    (steps : List ChainOfThoughtEntry) :
    List.foldl (log_step_append m) [] steps = steps.drop (steps.length - m) ∧
    (List.foldl (log_step_append m) [] steps).length ≤ m := by
  have main : List.foldl (log_step_append m) [] steps = steps.drop (steps.length - m) := by
    induction steps using List.reverseRecOn with
    | nil => simp
    | append_singleton init e ih =>
        rw [List.foldl_append, List.foldl_cons, List.foldl_nil, ih,
            log_step_append_eq_drop m hm]
        have h2 : (init.drop (init.length - m) ++ [e]).length
            = (init.length - (init.length - m)) + 1 := by simp
        have h3 : (init ++ [e]).length = init.length + 1 := by simp
        rw [h2, h3,
            List.drop_append_of_le_length (by simp only [List.length_drop]; omega),
            List.drop_append_of_le_length (by omega),
            List.drop_drop]
        have h4 : (init.length - m) + ((init.length - (init.length - m)) + 1 - m)
            = init.length + 1 - m := by omega
        rw [h4]
  refine ⟨main, ?_⟩
  rw [main, List.length_drop]
  omega

/-- C2 (witness): with `max_entries = 2`, logging A, B, C leaves exactly
[B, C] in that order. -/
theorem c2_witness :
    List.foldl (log_step_append 2) []
      [mkEntry "A" "" 1 "t1" LogLevel.INFO [], mkEntry "B" "" 1 "t2" LogLevel.INFO [],
       mkEntry "C" "" 1 "t3" LogLevel.INFO []]
    = [mkEntry "B" "" 1 "t2" LogLevel.INFO [], mkEntry "C" "" 1 "t3" LogLevel.INFO []] :=
  (c2_capacity_invariant 2 (by omega) _).1.trans rfl

lemma levelOfString_levelValue (l : LogLevel) : levelOfString (levelValue l) = some l := by
  cases l <;> rfl

lemma loadToolCall_toolCallToDict (t : ToolCall) :
    loadToolCall (toolCallToDict t) = some t := rfl

lemma loadToolCalls_map_toDict (ts : List ToolCall) :
    loadToolCalls (ts.map toolCallToDict) = some ts := by
  induction ts with
  | nil => rfl
  | cons t ts ih => simp [loadToolCalls, loadToolCall_toolCallToDict, ih]

lemma loadEntry_to_dict (e : ChainOfThoughtEntry) : loadEntry e.to_dict = some e := by
  unfold loadEntry ChainOfThoughtEntry.to_dict
  simp [loadToolCalls_map_toDict, levelOfString_levelValue]

lemma filterMap_loadEntry_to_dict (es : List ChainOfThoughtEntry) :
    (es.map ChainOfThoughtEntry.to_dict).filterMap loadEntry = es := by
  induction es with
  | nil => rfl
  | cons e es ih => simp [List.filterMap_cons, loadEntry_to_dict, ih]

/-- C4: serializing the in-memory entries with `_save_logs` (the same entry
serialization `export_to_json` uses) and loading the file's entry list into
a fresh logger whose `max_entries` is at least the entry count reconstructs
the same entries, in content and order. -/
theorem c4_save_load_roundtrip (sid savedAt : String) (es : List ChainOfThoughtEntry)
    (maxE : Nat) (h : es.length ≤ maxE) :
    load_logs maxE (save_logs sid savedAt es).entries = es := by
  unfold load_logs save_logs
  rw [pySliceFrom_all maxE _ (by simpa using h)]
  exact filterMap_loadEntry_to_dict es

/-- C4 (witness): a concrete entry with a nested tool call survives the
round trip. -/
theorem c4_witness :
    load_logs 1000 (save_logs "session_1" "2024-01-01T00:00:01"
      [{ mkEntry "researcher" "use web search" 0.9 "2024-01-01T00:00:00" LogLevel.INFO
           [("session_id", JVal.s "session_1")] with
         tool_calls := [{ tool_name := "web_search", query := "lean 4",
                          parameters := [("max_results", JVal.num 5)],
                          results := JVal.s "ok", execution_time := 0.25,
                          success := true, error_message := none }] }]).entries
      = [{ mkEntry "researcher" "use web search" 0.9 "2024-01-01T00:00:00" LogLevel.INFO
             [("session_id", JVal.s "session_1")] with
           tool_calls := [{ tool_name := "web_search", query := "lean 4",
                            parameters := [("max_results", JVal.num 5)],
                            results := JVal.s "ok", execution_time := 0.25,
                            success := true, error_message := none }] }] :=
  c4_save_load_roundtrip "session_1" "2024-01-01T00:00:01" _ 1000 (by norm_num)

/-- C5 (counterexample): `_load_logs` only considers
`entries_data[-max_entries:]`. With `max_entries = 2` and a file holding a
loadable entry, then a corrupt one, then a loadable one, the corrupt entry
is skipped but the first loadable entry is dropped by the window — the load
does not yield all non-failing entries. -/
theorem c5_counterexample :
    load_logs 2
      [(mkEntry "planner" "d1" 1 "t1" LogLevel.INFO []).to_dict,
       { (mkEntry "writer" "d2" 1 "t2" LogLevel.INFO []).to_dict with
         level := some "invalid-level" },
       (mkEntry "researcher" "d3" 1 "t3" LogLevel.INFO []).to_dict]
      = [mkEntry "researcher" "d3" 1 "t3" LogLevel.INFO []] ∧
    List.filterMap loadEntry
      [(mkEntry "planner" "d1" 1 "t1" LogLevel.INFO []).to_dict,
       { (mkEntry "writer" "d2" 1 "t2" LogLevel.INFO []).to_dict with
         level := some "invalid-level" },
       (mkEntry "researcher" "d3" 1 "t3" LogLevel.INFO []).to_dict]
      = [mkEntry "planner" "d1" 1 "t1" LogLevel.INFO [],
         mkEntry "researcher" "d3" 1 "t3" LogLevel.INFO []] ∧
    [mkEntry "researcher" "d3" 1 "t3" LogLevel.INFO []]
      ≠ [mkEntry "planner" "d1" 1 "t1" LogLevel.INFO [],
         mkEntry "researcher" "d3" 1 "t3" LogLevel.INFO []] := by
  refine ⟨by decide, by decide, by decide⟩

/-- C5 (amended): whenever the persisted entry list fits within
`max_entries`, `_load_logs` skips exactly the entries whose reconstruction
fails (missing required field, invalid level string, malformed tool-call
shape) and loads all remaining ones in their original order, without
raising; in general only the last `max_entries` raw entries are considered. -/
theorem c5_skips_only_failing (maxE : Nat) (raws : List RawEntry)
    (h : raws.length ≤ maxE) :
    load_logs maxE raws = raws.filterMap loadEntry := by
  unfold load_logs
  rw [pySliceFrom_all maxE raws h]

/-- C5 (witness): a file of five entries whose third has an invalid level
string loads to exactly the other four, in order. -/
theorem c5_witness :
    load_logs 1000
      [(mkEntry "a1" "d1" 1 "t1" LogLevel.INFO []).to_dict,
       (mkEntry "a2" "d2" 1 "t2" LogLevel.DEBUG []).to_dict,
       { (mkEntry "a3" "d3" 1 "t3" LogLevel.INFO []).to_dict with
         level := some "not-a-level" },
       (mkEntry "a4" "d4" 1 "t4" LogLevel.WARNING []).to_dict,
       (mkEntry "a5" "d5" 1 "t5" LogLevel.ERROR []).to_dict]
      = [mkEntry "a1" "d1" 1 "t1" LogLevel.INFO [],
         mkEntry "a2" "d2" 1 "t2" LogLevel.DEBUG [],
         mkEntry "a4" "d4" 1 "t4" LogLevel.WARNING [],
         mkEntry "a5" "d5" 1 "t5" LogLevel.ERROR []] :=
  (c5_skips_only_failing 1000 _ (by norm_num)).trans (by decide)

/-- C3 (counterexample): two parseable timestamps exactly 3600 seconds
apart render as `"60 minutes"`, because the hour branch requires
`delta.seconds > 3600` strictly — the claim's "at least 3600 seconds"
bucketing would render `"1 hours"`. -/
theorem c3_counterexample :
    calculate_time_span
      [mkEntry "a" "" 1 "1970-01-01T00:00:00" LogLevel.INFO [],
       mkEntry "b" "" 1 "1970-01-01T01:00:00" LogLevel.INFO []]
      = "60 minutes" ∧
    ("60 minutes" : String) ≠ "1 hours" := by
  refine ⟨by decide, by decide⟩

/-- C3 (amended): for a chronologically ordered entry list whose first and
last timestamps parse to `t1 ≤ t2` microseconds, `_calculate_time_span`
renders the duration `d = t2 - t1` with the largest applicable unit under
strict thresholds: `"N days"` when `d` is at least one day, else
`"N hours"` when the whole seconds exceed 3600 strictly, else
`"N minutes"` when they exceed 60 strictly, else `"N seconds"`;
if either timestamp fails to parse the result is the literal `"unknown"`. -/
theorem c3_time_span_buckets (e : ChainOfThoughtEntry) (rest : List ChainOfThoughtEntry) :
    (∀ t1 t2 : Int,
      fromisoformat e.timestamp = some t1 →
      fromisoformat ((e :: rest).getLast (List.cons_ne_nil e rest)).timestamp = some t2 →
      t1 ≤ t2 →
      calculate_time_span (e :: rest) =
        (if 86400000000 ≤ t2 - t1 then
          toString ((t2 - t1) / 86400000000) ++ " days"
        else if 3600 < (t2 - t1) / 1000000 then
          toString ((t2 - t1) / 1000000 / 3600) ++ " hours"
        else if 60 < (t2 - t1) / 1000000 then
          toString ((t2 - t1) / 1000000 / 60) ++ " minutes"
        else
          toString ((t2 - t1) / 1000000) ++ " seconds")) ∧
    ((fromisoformat e.timestamp = none ∨
      fromisoformat ((e :: rest).getLast (List.cons_ne_nil e rest)).timestamp = none) →
      calculate_time_span (e :: rest) = "unknown") := by
  constructor
  · intro t1 t2 h1 h2 hle
    simp only [calculate_time_span, h1, h2]
    by_cases hday : 86400000000 ≤ t2 - t1
    · have hpos : 0 < timedeltaDays (t2 - t1) := by unfold timedeltaDays; omega
      rw [if_pos hpos, if_pos hday]
      rfl
    · have hnpos : ¬0 < timedeltaDays (t2 - t1) := by unfold timedeltaDays; omega
      have hsec : timedeltaSeconds (t2 - t1) = (t2 - t1) / 1000000 := by
        unfold timedeltaSeconds
        have hmod : (t2 - t1) % 86400000000 = t2 - t1 := by omega
        rw [hmod]
      rw [if_neg hnpos, if_neg hday, hsec]
  · intro h
    cases hf : fromisoformat e.timestamp with
    | none => simp only [calculate_time_span, hf]
    | some t1 =>
        cases hg : fromisoformat ((e :: rest).getLast (List.cons_ne_nil e rest)).timestamp with
        | none => simp only [calculate_time_span, hf, hg]
        | some t2 =>
            rcases h with h | h
        
            · rw [hf] at h; exact absurd h (by simp)
            · rw [hg] at h; exact absurd h (by simp)

/-- C3 (witness): timestamps 90 minutes apart render as `"1 hours"`,
45 seconds apart as `"45 seconds"`, and an unparseable first timestamp
renders as `"unknown"`. -/
theorem c3_witness :
    calculate_time_span
      [mkEntry "a" "" 1 "1970-01-01T00:00:00" LogLevel.INFO [],
       mkEntry "b" "" 1 "1970-01-01T01:30:00" LogLevel.INFO []] = "1 hours" ∧
    calculate_time_span
      [mkEntry "a" "" 1 "1970-01-01T00:00:00" LogLevel.INFO [],
       mkEntry "b" "" 1 "1970-01-01T00:00:45" LogLevel.INFO []] = "45 seconds" ∧
    calculate_time_span
      [mkEntry "a" "" 1 "not-a-date" LogLevel.INFO [],
       mkEntry "b" "" 1 "1970-01-01T00:00:00" LogLevel.INFO []] = "unknown" := by
  refine ⟨?_, ?_, ?_⟩
  · exact ((c3_time_span_buckets _ _).1 0 5400000000 (by decide) (by decide)
      (by decide)).trans (by decide)
  · exact ((c3_time_span_buckets _ _).1 0 45000000 (by decide) (by decide)
      (by decide)).trans (by decide)
  · exact (c3_time_span_buckets _ _).2 (Or.inl (by decide))

lemma get_entries_no_limit_eq_filter (es : List ChainOfThoughtEntry)
    (a : Option String) (lv : Option LevelArg) :
    get_entries es a lv none = es.filter (specFilterMatches a lv) := by
  unfold get_entries specFilterMatches
  cases a with
  | none =>
      cases lv with
      | none => simp
      | some l =>
          by_cases hl : levelArgTruthy l <;> simp [hl]
  | some s =>
      by_cases hs : s = ""
      · subst hs
        cases lv with
        | none => simp
        | some l => by_cases hl : levelArgTruthy l <;> simp [hl]
      · cases lv with
        | none => simp [hs]
        | some l =>
            by_cases hl : levelArgTruthy l <;>
              simp [hs, hl, List.filter_filter, Bool.and_comm]

lemma get_entries_some_limit (es : List ChainOfThoughtEntry) (a : Option String)
    (lv : Option LevelArg) (n : Int) (hn : n ≠ 0) :
    get_entries es a lv (some n) = pySliceFrom (-n) (get_entries es a lv none) := by
  simp only [get_entries]
  rw [if_neg hn]

lemma pySliceFrom_neg_of_pos (n : Int) (hn : 0 < n) (xs : List α) :
    pySliceFrom (-n) xs = xs.drop (xs.length - n.toNat) := by
  unfold pySliceFrom
  rw [if_pos (by omega)]
  congr 1
  omega

/-- C6 (counterexample): `limit=0` is falsy, so `get_entries` returns every
match instead of the claimed "last 0 elements of the filtered result", and
a falsy non-member level value (the empty string) disables the level filter
instead of matching nothing. -/
theorem c6_counterexample :
    get_entries [mkEntry "planner" "" 1 "t" LogLevel.INFO []] none none (some 0)
      = [mkEntry "planner" "" 1 "t" LogLevel.INFO []] ∧
    ([mkEntry "planner" "" 1 "t" LogLevel.INFO []] : List ChainOfThoughtEntry) ≠ [] ∧
    get_entries [mkEntry "planner" "" 1 "t" LogLevel.INFO []] none
        (some (LevelArg.invalid "")) none
      = [mkEntry "planner" "" 1 "t" LogLevel.INFO []] := by
  refine ⟨by decide, by decide, by decide⟩

/-- C6 (amended): `get_entries` returns the entries matching all provided
truthy filters (logical AND) in original insertion order; when a positive
`limit` is given it returns the last `limit` elements of the filtered
result (filter-then-tail); `limit=0` and other falsy arguments act as
absent filters; a truthy level value outside the known enumeration matches
nothing and never raises. -/
theorem c6_filter_then_tail (es : List ChainOfThoughtEntry) (a : Option String)
    (lv : Option LevelArg) (n : Int) (hn : 0 < n) :
    get_entries es a lv none = es.filter (specFilterMatches a lv) ∧
    get_entries es a lv (some n) =
      (es.filter (specFilterMatches a lv)).drop
        ((es.filter (specFilterMatches a lv)).length - n.toNat) ∧
    ∀ s, s ≠ "" →
      get_entries es a (some (LevelArg.invalid s)) (some n) = [] ∧
      get_entries es a (some (LevelArg.invalid s)) none = [] := by
  refine ⟨get_entries_no_limit_eq_filter es a lv, ?_, ?_⟩
  · rw [get_entries_some_limit es a lv n (by omega),
        pySliceFrom_neg_of_pos n hn, get_entries_no_limit_eq_filter]
  · intro s hs
    have hnone : get_entries es a (some (LevelArg.invalid s)) none = [] := by
      rw [get_entries_no_limit_eq_filter]
      have hfalse : ∀ e : ChainOfThoughtEntry,
          specFilterMatches a (some (LevelArg.invalid s)) e = false := by
        intro e
        unfold specFilterMatches entryLevelEq
        cases a <;> simp [levelArgTruthy, hs]
      simp [List.filter_eq_nil_iff, hfalse]
    refine ⟨?_, hnone⟩
    rw [get_entries_some_limit es a _ n (by omega), hnone]
    simp [pySliceFrom]

/-- C6 (witness): concrete instantiation with a singleton log, `limit=1`
and a truthy unknown level. -/
theorem c6_witness :
    get_entries [mkEntry "planner" "" 1 "t" LogLevel.INFO []] none none (some 1)
      = [mkEntry "planner" "" 1 "t" LogLevel.INFO []] ∧
    get_entries [mkEntry "planner" "" 1 "t" LogLevel.INFO []] none
        (some (LevelArg.invalid "verbose")) (some 1) = [] := by
  constructor
  · exact ((c6_filter_then_tail [mkEntry "planner" "" 1 "t" LogLevel.INFO []]
      none none 1 (by decide)).2.1).trans (by decide)
  · exact ((c6_filter_then_tail [mkEntry "planner" "" 1 "t" LogLevel.INFO []]
      none none 1 (by decide)).2.2 "verbose" (by decide)).1

/-- C7: for a non-empty entry set, the summary's `key_decisions` value is
exactly the list of entries with a non-empty decision and confidence
strictly greater than 0.7, in order, each reduced to the four fields
`{agent, decision, confidence, timestamp}`. -/
theorem c7_key_decisions (es : List ChainOfThoughtEntry) (cur : String) (h : es ≠ []) :
    lookupSummary (create_summary es none cur) "key_decisions" =
      some (SVal.list
        ((es.filter (fun e =>
            decide (e.decision ≠ "") && decide ((0.7 : Rat) < e.confidence))).map
          keyDecisionDict)) := by
  have hsel : summarySelect es none cur = es := rfl
  have hne : es.isEmpty = false := by
    cases es with
    | nil => exact absurd rfl h
    | cons e es => rfl
  simp only [create_summary, hsel, hne, Bool.false_eq_true, if_false]
  rfl

/-- C7 (witness): an entry with decision "X" and confidence 0.70 is
excluded from `key_decisions`; one with confidence 0.71 is included. -/
theorem c7_witness :
    lookupSummary
      (create_summary
        [mkEntry "planner" "X" 0.70 "t1" LogLevel.INFO [],
         mkEntry "writer" "Y" 0.71 "t2" LogLevel.INFO []] none "s")
      "key_decisions" =
      some (SVal.list [keyDecisionDict (mkEntry "writer" "Y" 0.71 "t2" LogLevel.INFO [])]) := by
  have h := c7_key_decisions
    [mkEntry "planner" "X" 0.70 "t1" LogLevel.INFO [],
     mkEntry "writer" "Y" 0.71 "t2" LogLevel.INFO []] "s" (by simp)
  refine h.trans ?_
  have hf : (List.filter (fun e =>
      decide (e.decision ≠ "") && decide ((0.7 : Rat) < e.confidence))
        [mkEntry "planner" "X" 0.70 "t1" LogLevel.INFO [],
         mkEntry "writer" "Y" 0.71 "t2" LogLevel.INFO []])
      = [mkEntry "writer" "Y" 0.71 "t2" LogLevel.INFO []] := by
    norm_num [List.filter_cons, List.filter_nil, mkEntry]
    decide
  rw [hf]
  rfl

/-- C10: when the selected entry set is empty, `create_summary` returns
exactly the five keys `summary`, `total_steps` (0), `agents_involved`
(`[]`), `tools_used` (`[]`) and `average_confidence` (0.0); the keys
`level_distribution`, `key_decisions`, `session_id` and `time_span`,
present in every non-empty summary, are absent. -/
theorem c10_empty_summary_shape (entries : List ChainOfThoughtEntry)
    (sessionId : Option String) (cur : String)
    (hsel : summarySelect entries sessionId cur = []) :
    create_summary entries sessionId cur =
      [("summary", SVal.s "No reasoning steps recorded"),
       ("total_steps", SVal.i 0),
       ("agents_involved", SVal.list []),
       ("tools_used", SVal.list []),
       ("average_confidence", SVal.num 0)] ∧
    "level_distribution" ∉ (create_summary entries sessionId cur).map Prod.fst ∧
    "key_decisions" ∉ (create_summary entries sessionId cur).map Prod.fst ∧
    "session_id" ∉ (create_summary entries sessionId cur).map Prod.fst ∧
    "time_span" ∉ (create_summary entries sessionId cur).map Prod.fst ∧
    ∀ es2, summarySelect es2 sessionId cur ≠ [] →
      (create_summary es2 sessionId cur).map Prod.fst =
        ["summary", "total_steps", "agents_involved", "tools_used",
         "average_confidence", "level_distribution", "key_decisions",
         "session_id", "time_span"] := by
  have hempty : create_summary entries sessionId cur =
      [("summary", SVal.s "No reasoning steps recorded"),
       ("total_steps", SVal.i 0),
       ("agents_involved", SVal.list []),
       ("tools_used", SVal.list []),
       ("average_confidence", SVal.num 0)] := by
    unfold create_summary
    rw [hsel]
    rfl
  refine ⟨hempty, ?_, ?_, ?_, ?_, ?_⟩
  · rw [hempty]; decide
  · rw [hempty]; decide
  · rw [hempty]; decide
  · rw [hempty]; decide
  · intro es2 h2
    have hne : (summarySelect es2 sessionId cur).isEmpty = false := by
      cases hx : summarySelect es2 sessionId cur with
      | nil => exact absurd hx h2
      | cons e es => rfl
    simp only [create_summary]
    rw [hne]
    rfl

/-- C10 (witness): the empty log yields the five-key summary and a
singleton log yields all nine keys. -/
theorem c10_witness :
    create_summary [] none "sess" =
      [("summary", SVal.s "No reasoning steps recorded"),
       ("total_steps", SVal.i 0),
       ("agents_involved", SVal.list []),
       ("tools_used", SVal.list []),
       ("average_confidence", SVal.num 0)] ∧
    (create_summary [mkEntry "planner" "d" 1 "t" LogLevel.INFO []] none "sess").map Prod.fst =
      ["summary", "total_steps", "agents_involved", "tools_used",
       "average_confidence", "level_distribution", "key_decisions",
       "session_id", "time_span"] := by
  have h := c10_empty_summary_shape [] none "sess" rfl
  exact ⟨h.1, h.2.2.2.2.2 [mkEntry "planner" "d" 1 "t" LogLevel.INFO []] (by decide)⟩
